import Mathlib

/-!
Verification development for the outreach mass-email service.

Shallow embedding of the core components:
  * `utils/email_validator_lite.py`  — syntax + MX email validation
  * `executor/recipient_resolver.py` — row → recipient mapping and filtering
  * `utils/rate_limiter.py`          — token-bucket rate limiter
  * `utils/retry.py`                 — retry wrapper with backoff + jitter
  * `executor/engine_builder.py`     — sender factory
  * `senders/smtp_sender.py`         — SMTP sender (exception-swallowing)
  * `executor/workflow_executor.py`  — sending loop, tallies, final status
  * `scheduler/schedule_runner.py`   — schedule locking and updates

Python machine-level details (actual DNS, SMTP sockets, wall-clock time,
random jitter) are modelled as explicit oracles / parameters; time is ℚ
(seconds), counters are ℕ/ℤ.  String primitives are implemented
structurally on `List Char` so that every definition evaluates by kernel
reduction.
-/

/-- Python `str.split(sep)` for a one-character separator, on char lists. -/
def splitOnChar (c : Char) : List Char → List (List Char)
  | [] => [[]]
  | x :: xs =>
    match splitOnChar c xs with
    | [] => if x = c then [[], []] else [[x]]
    | y :: ys => if x = c then [] :: y :: ys else (x :: y) :: ys

/-- Drop leading whitespace from a char list. -/
def dropLeadingWs : List Char → List Char
  | [] => []
  | c :: cs => if c.isWhitespace then dropLeadingWs cs else c :: cs

/-- Python `str.strip()` on char lists. -/
def stripChars (cs : List Char) : List Char :=
  (dropLeadingWs ((dropLeadingWs cs).reverse)).reverse

/-- `email.strip().lower()` as applied by the resolver and the validator
(ASCII case folding, which is all the code relies on). -/
def pyNorm (s : String) : String :=
  String.mk ((stripChars s.toList).map Char.toLower)

/-- Characters allowed by the local part of `_EMAIL_REGEX`:
`[A-Za-z0-9._%+\-]`. -/
def isLocalChar (c : Char) : Bool :=
  c.isAlpha || c.isDigit || c = '.' || c = '_' || c = '%' || c = '+' || c = '-'

/-- Characters allowed by the domain part of `_EMAIL_REGEX`: `[A-Za-z0-9.\-]`. -/
def isDomainChar (c : Char) : Bool :=
  c.isAlpha || c.isDigit || c = '.' || c = '-'

/-- `_syntax_ok` of `email_validator_lite.py`: full match of
`^[A-Za-z0-9._%+\-]+@[A-Za-z0-9.\-]+\.[A-Za-z]{2,}$`.
The regex is equivalent to: exactly one `@`; a nonempty local part over the
local character class; a domain whose suffix after its last `.` is at least
two ASCII letters, with a nonempty prefix over the domain character class
before that last dot. -/
def formatOkChars (cs : List Char) : Bool :=
  match splitOnChar '@' cs with
  | [lp, dom] =>
    decide (1 ≤ lp.length) && lp.all isLocalChar &&
    (match (splitOnChar '.' dom).reverse with
     | tld :: restRev =>
       decide (2 ≤ tld.length) && tld.all (fun c => c.isAlpha) &&
       decide (1 ≤ (List.intercalate ['.'] restRev.reverse).length) &&
       restRev.all (fun seg => seg.all isDomainChar)
     | [] => false)
  | _ => false

/-- `_syntax_ok` on strings. -/
def formatOk (s : String) : Bool := formatOkChars s.toList

/-- `email.split("@")[-1]` — the domain of a (syntax-valid) email. -/
def domainOf (e : String) : String :=
  String.mk (((splitOnChar '@' e.toList).reverse).headD e.toList)

/-- Classification attached (in the warning log) to an invalid email:
bad syntax vs. a domain with no mail-exchange record. -/
inductive InvalidReason
  | badFormat
  | deadDomain
  deriving DecidableEq, Repr

/-- Insert `e` into an insertion-ordered association list of domain groups —
models `domain_emails.setdefault(domain, []).append(email)` on a Python dict
(which preserves insertion order). -/
def insertGrouped (m : List (String × List String)) (d : String) (e : String) :
    List (String × List String) :=
  match m with
  | [] => [(d, [e])]
  | (k, es) :: rest =>
    if k = d then (k, es ++ [e]) :: rest else (k, es) :: insertGrouped rest d e

/-- Group syntax-valid emails by their domain, preserving first-seen domain
order, as the MX phase of `validate_emails` does. -/
def groupByDomain (emails : List String) : List (String × List String) :=
  emails.foldl (fun m e => insertGrouped m (domainOf e) e) []

/-- Output of `validate_emails`: the returned `(valid, invalid)` partition,
plus the observable classification of each invalid entry (mirroring the
`[Syntax] Bad format` / `[MX] No mail server` warning logs) and the list of
emails that entered the MX-check phase. -/
structure ValidationOut where
  valid : List String
  invalid : List String
  flagged : List (String × InvalidReason)
  mxPhase : List String
  deriving DecidableEq, Repr

/-- `validate_emails(emails, skip_mx)` of `email_validator_lite.py`.
`mx d` is the DNS oracle: the boolean result of `_has_mx(d)` (cache behaviour
does not change the boolean outcome, only lookup counts, and is not modelled).
Each email is normalised (`strip().lower()`), partitioned by the syntax regex;
syntax failures go straight to `invalid`; the rest are grouped by domain and
classified by the MX result of the domain. -/
def validateEmails (mx : String → Bool) (skipMx : Bool) (emails : List String) :
    ValidationOut :=
  let normed := emails.map pyNorm
  let sOk := normed.filter formatOk
  let sFail := normed.filter (fun e => ! formatOk e)
  if skipMx then
    { valid := sOk
      invalid := sFail
      flagged := sFail.map (fun e => (e, InvalidReason.badFormat))
      mxPhase := [] }
  else
    let groups := groupByDomain sOk
    let mxFailEmails := ((groups.filter (fun g => ! mx g.1)).map Prod.snd).flatten
    { valid := ((groups.filter (fun g => mx g.1)).map Prod.snd).flatten
      invalid := sFail ++ mxFailEmails
      flagged := sFail.map (fun e => (e, InvalidReason.badFormat)) ++
        mxFailEmails.map (fun e => (e, InvalidReason.deadDomain))
      mxPhase := sOk }

/-! ## Recipient resolver (`executor/recipient_resolver.py`) -/

/-- One row returned by the backend recipient query.  Only the keys the
resolver reads are modelled; all remaining columns become metadata and do not
influence which recipients are returned. -/
structure Row where
  recipientEmail : Option String := none
  email : Option String := none
  recipientName : Option String := none
  name : Option String := none
  contactName : Option String := none
  deriving DecidableEq, Repr

/-- Python truthiness of an optional string (`None` and `""` are falsy). -/
def truthy : Option String → Bool
  | none => false
  | some s => ! (s = "")

/-- Python `a or b` on optional strings. -/
def pyOr (a b : Option String) : Option String :=
  if truthy a then a else if truthy b then b else none

/-- `models/recipient.py` `Recipient`, restricted to the fields the executor
reads (`metadata` is carried opaquely as the source row). -/
structure WfRecipient where
  email : String
  name : Option String
  srcRow : Row
  deriving DecidableEq, Repr

/-- The row loop of `RecipientResolver.resolve`: pick
`recipient_email or email` (skip rows with neither), normalise the address,
pick `recipient_name or name or contact_name` as the display name. -/
def rowsToRaw (rows : List Row) : List WfRecipient :=
  rows.filterMap (fun r =>
    match pyOr r.recipientEmail r.email with
    | some e => some { email := pyNorm e
                       name := pyOr (pyOr r.recipientName r.name) r.contactName
                       srcRow := r }
    | none => none)

/-- `RecipientResolver.resolve` after a successful backend query: validate all
raw emails (syntax + MX via the `mx` oracle), then keep the raw recipients
whose email is in the valid set.  Returns `(valid_recipients, invalid_list)`.
A backend error returns `([], [])` upstream and is not modelled here. -/
def resolve (mx : String → Bool) (rows : List Row) :
    List WfRecipient × List String :=
  let raw := rowsToRaw rows
  if raw.isEmpty then ([], [])
  else
    let vOut := validateEmails mx false (raw.map WfRecipient.email)
    (raw.filter (fun r => r.email ∈ vOut.valid), vOut.invalid)

/-! ## Token-bucket rate limiter (`utils/rate_limiter.py`) -/

/-- Mutable state of `TokenBucketRateLimiter`: the token count and the
monotonic timestamp of the last refill. -/
structure BucketState where
  tokens : ℤ
  lastRefill : ℚ
  deriving DecidableEq, Repr

/-- One pass through the body of `TokenBucketRateLimiter.acquire` (for one
token) at monotonic time `now`: with `rate_limit <= 0` return immediately;
otherwise refill (full reset) when strictly more than 60 seconds have passed
since the last refill, then consume a token if one is available.  Returns the
new state and whether the acquisition succeeded on this pass (on `false` the
caller sleeps and retries — a later attempt in the trace). -/
def acquireTry (rate : ℤ) (st : BucketState) (now : ℚ) : BucketState × Bool :=
  if rate ≤ 0 then (st, true)
  else
    let st1 := if 60 < now - st.lastRefill
      then { tokens := rate, lastRefill := now } else st
    if 1 ≤ st1.tokens then ({ st1 with tokens := st1.tokens - 1 }, true)
    else (st1, false)

/-- Result of folding a trace of acquire attempts through the limiter. -/
structure LimiterRun where
  state : BucketState
  succTimes : List ℚ
  refills : ℕ
  deriving DecidableEq, Repr

/-- Fold a (monotone) list of attempt times through `acquireTry`, recording
the times of successful acquisitions and how many full-reset refills
happened. -/
def runAcquires (rate : ℤ) : BucketState → List ℚ → LimiterRun
  | st, [] => { state := st, succTimes := [], refills := 0 }
  | st, t :: ts =>
    let step := acquireTry rate st t
    let rest := runAcquires rate step.1 ts
    { state := rest.state
      succTimes := if step.2 then t :: rest.succTimes else rest.succTimes
      refills :=
        (if ¬ rate ≤ 0 ∧ 60 < t - st.lastRefill then 1 else 0) + rest.refills }

/-! ## Retry manager (`utils/retry.py`) -/

/-- Does `needle` occur at the head of `hay`? -/
def charsLead : List Char → List Char → Bool
  | [], _ => true
  | _ :: _, [] => false
  | a :: as, b :: bs => a = b && charsLead as bs

/-- Does `needle` occur anywhere in `hay`?  (Python `needle in hay`.) -/
def charsHave (needle : List Char) : List Char → Bool
  | [] => charsLead needle []
  | c :: cs => charsLead needle (c :: cs) || charsHave needle cs

/-- Python `needle in hay` on strings. -/
def strHas (hay needle : String) : Bool := charsHave needle.toList hay.toList

/-- The transient markers of `RetryManager.is_transient_error`. -/
def transientKeywords : List String :=
  [("timeout"), ("connection"), ("rate limit"), ("429"), ("500"), ("502"),
   ("503"), ("504")]

/-- Python `str.lower()` (no stripping). -/
def pyLowerStr (s : String) : String := String.mk (s.toList.map Char.toLower)

/-- `RetryManager.is_transient_error`: lowercase the error text and look for
any transient keyword as a substring. -/
def isTransientError (msg : String) : Bool :=
  transientKeywords.any (fun k => strHas (pyLowerStr msg) k)

/-- Result of one call of the wrapped operation: a value or a raised error
(identified by its message, which is what classification inspects). -/
inductive CallResult (α : Type)
  | ok (a : α)
  | err (msg : String)
  deriving DecidableEq, Repr

/-- Observable outcome of the retry wrapper: the returned value or re-raised
error, the total number of calls made to the wrapped operation, and the list
of backoff sleeps performed (delay + jitter, in order). -/
inductive RetryOutcome (α : Type)
  | value (a : α) (calls : ℕ) (sleeps : List ℚ)
  | raised (msg : String) (calls : ℕ) (sleeps : List ℚ)
  deriving DecidableEq, Repr

/-- Total calls made. -/
def RetryOutcome.callCount {α : Type} : RetryOutcome α → ℕ
  | .value _ c _ => c
  | .raised _ c _ => c

/-- Backoff sleeps performed, in order. -/
def RetryOutcome.sleepsOf {α : Type} : RetryOutcome α → List ℚ
  | .value _ _ ds => ds
  | .raised _ _ ds => ds

/-- Record one backoff sleep in front of a retry outcome. -/
def RetryOutcome.consSleep {α : Type} (x : ℚ) : RetryOutcome α → RetryOutcome α
  | .value a c ds => .value a c (x :: ds)
  | .raised m c ds => .raised m c (x :: ds)

/-- The `while True` loop of the `wrapper` closure in `RetryManager.with_retry`.
`calls n` is the result of the `n`-th call of the wrapped operation
(0-based); `jit n` is the `random.uniform(0, 0.1 * delay)` jitter drawn when
`attempt == n`.  `attempt` counts failures so far; the loop body: call; on
error increment `attempt`; raise if `attempt >= max_attempts`; raise if the
error is not transient; otherwise sleep `min(base * 2^(attempt-1), maxD)`
plus jitter and loop.  `fuel` is a structural bound; `withRetry` supplies
`maxAttempts + 1`, which exceeds the maximal loop depth, so the fuel-0 branch
is unreachable. -/
def retryLoop {α : Type} (maxAttempts : ℕ) (base maxD : ℚ)
    (calls : ℕ → CallResult α) (jit : ℕ → ℚ) :
    ℕ → ℕ → RetryOutcome α
  | 0, attempt => .raised ("fuel exhausted") attempt []
  | fuel + 1, attempt =>
    match calls attempt with
    | .ok a => .value a (attempt + 1) []
    | .err e =>
      if maxAttempts ≤ attempt + 1 then .raised e (attempt + 1) []
      else if ! isTransientError e then .raised e (attempt + 1) []
      else
        RetryOutcome.consSleep (min (base * 2 ^ attempt) maxD + jit (attempt + 1))
          (retryLoop maxAttempts base maxD calls jit fuel (attempt + 1))

/-- `RetryManager.with_retry(max_attempts, base_delay, max_delay)` applied to
an operation whose successive call results are `calls` (with
`retry_on = (Exception,)`, the default and the only instantiation used). -/
def withRetry {α : Type} (maxAttempts : ℕ) (base maxD : ℚ)
    (calls : ℕ → CallResult α) (jit : ℕ → ℚ) : RetryOutcome α :=
  retryLoop maxAttempts base maxD calls jit (maxAttempts + 1) 0

/-! ## SMTP sender (`senders/smtp_sender.py`) -/

/-- `SMTPSender._send_sync`: the entire body (message construction, SMTP
session, `sendmail`) runs inside `try: ... except Exception: return False`.
`body` is the outcome of that inner computation — `.ok b` when the session
completes returning `b` (the code returns `True`), `.error m` when anything
in it raises.  The function itself is total: no exception escapes. -/
def sendSync (body : Except String Bool) : Bool :=
  match body with
  | .ok b => b
  | .error _ => false

/-- `SMTPSender.send` — `asyncio.to_thread(self._send_sync, ...)`: the same
value, as the call result seen by the retry wrapper (never `.err`). -/
def smtpSendCall (body : Except String Bool) : CallResult Bool :=
  CallResult.ok (sendSync body)

/-! ## Engine builder (`executor/engine_builder.py`) -/

/-- The values of the `EngineType` string enum
(`models/delivery_engine.py`).  As a `str` enum, a member compares equal to
its value string, so members are modelled by those strings. -/
def engineTypeVals : List String :=
  [("smtp"), ("mailgun"), ("sendgrid"), ("aws_ses"), ("outlook_api")]

/-- Engine configuration dict, restricted to the keys the builder reads.
`none` models an absent key. -/
structure EngineConfig where
  engineType : Option String := none
  fromEmail : Option String := none
  status : Option String := none
  host : Option String := none
  username : Option String := none
  password : Option String := none
  apiKey : Option String := none
  deriving DecidableEq, Repr

/-- The normalisation step of `EngineBuilder.build`: `EngineType(e_type)`
(exact value match), else `EngineType(e_type.lower())`, else — both lookups
having raised `ValueError`, swallowed by the outer `except` — the raw value
is left in place. -/
def normalizeEngineType (cfg : EngineConfig) : EngineConfig :=
  match cfg.engineType with
  | some s =>
    if s ∈ engineTypeVals then cfg
    else if pyLowerStr s ∈ engineTypeVals then
      { cfg with engineType := some (pyLowerStr s) }
    else cfg
  | none => cfg

/-- `EngineBuilder.validate_config`: missing/falsy `engine_type` and missing
`from_email` are rejected; AWS SES additionally requires host, username and
password; SendGrid and Mailgun require an API key.  (Any other engine type,
known or unknown, has no type-specific requirement.) -/
def validateConfig (cfg : EngineConfig) : Except String Unit :=
  if ! truthy cfg.engineType then
    .error ("Missing engine_type in configuration.")
  else if cfg.fromEmail.isNone then
    .error ("Missing from_email in configuration.")
  else if cfg.engineType = some ("aws_ses") &&
      (cfg.host.isNone || cfg.username.isNone || cfg.password.isNone) then
    .error ("AWS SES requires host, username, password")
  else if cfg.engineType = some ("sendgrid") && cfg.apiKey.isNone then
    .error ("SendGrid requires api_key")
  else if cfg.engineType = some ("mailgun") && cfg.apiKey.isNone then
    .error ("Mailgun requires api_key")
  else .ok ()

/-- The sender variant `EngineBuilder.build` constructs. -/
inductive BuiltSender
  | smtpS (cfg : EngineConfig)
  | mailgunS (cfg : EngineConfig)
  | sendgridS (cfg : EngineConfig)
  | awsSesS (cfg : EngineConfig)
  deriving DecidableEq, Repr

/-- `EngineBuilder.build`: reject non-active configs, normalise the engine
type, validate, then dispatch — any engine type that matches no known member
falls through to the SMTP variant. -/
def build (cfg0 : EngineConfig) : Except String BuiltSender :=
  if ! (cfg0.status.getD ("active") = "active") then
    .error ("Engine is not active.")
  else
    let cfg := normalizeEngineType cfg0
    match validateConfig cfg with
    | .error m => .error m
    | .ok _ =>
      if cfg.engineType = some ("smtp") then .ok (.smtpS cfg)
      else if cfg.engineType = some ("mailgun") then .ok (.mailgunS cfg)
      else if cfg.engineType = some ("sendgrid") then .ok (.sendgridS cfg)
      else if cfg.engineType = some ("aws_ses") then .ok (.awsSesS cfg)
      else .ok (.smtpS cfg)

/-! ## Template renderer (`executor/template_renderer.py`)

Jinja2 templates are embedded as alternating literal/variable parts with
strict-undefined semantics: rendering fails on the first (leftmost)
referenced variable absent from the context, and `validate` statically lists
the referenced variables absent from the context. -/

/-- One piece of a parsed template. -/
inductive TPart
  | lit (s : String)
  | var (v : String)
  deriving DecidableEq, Repr

/-- A parsed template body. -/
abbrev Tmpl := List TPart

/-- A render context (insertion-ordered key/value map, first match wins). -/
abbrev RenderCtx := List (String × String)

/-- Context lookup. -/
def ctxGet (ctx : RenderCtx) (k : String) : Option String :=
  match ctx with
  | [] => none
  | (k2, v) :: rest => if k2 = k then some v else ctxGet rest k

/-- The variables referenced by a template
(`meta.find_undeclared_variables`, in order of appearance). -/
def tmplVars : Tmpl → List String
  | [] => []
  | TPart.lit _ :: rest => tmplVars rest
  | TPart.var v :: rest => v :: tmplVars rest

/-- `TemplateRenderer.render` under `StrictUndefined`: substitution that
fails on the first missing variable; the raised error is re-wrapped by the
renderer as a `ValueError` whose text begins `Template rendering failed:`. -/
def renderT (t : Tmpl) (ctx : RenderCtx) : Except String String :=
  match t with
  | [] => .ok ("")
  | TPart.lit s :: rest => (renderT rest ctx).map (fun r => s ++ r)
  | TPart.var v :: rest =>
    match ctxGet ctx v with
    | some val => (renderT rest ctx).map (fun r => val ++ r)
    | none => .error ("Template rendering failed: " ++ v ++ " is undefined")

/-- `TemplateRenderer.validate`: parse, enumerate referenced variables,
report those absent from the context (no rendering). -/
def validateTmpl (t : Tmpl) (ctx : RenderCtx) : List String :=
  (tmplVars t).filter (fun v => (ctxGet ctx v).isNone)

/-! ## Workflow executor — sending phase (`executor/workflow_executor.py`) -/

/-- The email template record fetched for a workflow (`subject`,
`content_html`, optional `content_text`). -/
structure EmailTemplate where
  subject : Tmpl
  contentHtml : Tmpl
  contentText : Option Tmpl
  deriving DecidableEq, Repr

/-- A valid recipient as seen by `process_recipient`: its address and its
metadata map (merged into the render context). -/
structure RecipCtx where
  email : String
  metadata : RenderCtx
  deriving DecidableEq, Repr

/-- Outcome of `_send_with_retry` for one recipient, as an oracle: the
sender accepted (`True`), rejected (`False`), or an exception escaped the
retry wrapper with the given message. -/
inductive SendTry
  | delivered
  | rejected
  | blowsUp (msg : String)
  deriving DecidableEq, Repr

/-- One entry of `recipient_results`. -/
structure RecipResult where
  email : String
  status : String
  errMsg : Option String
  deriving DecidableEq, Repr

/-- The context keys `process_recipient` injects after merging recipient
metadata with the execution context (all name variants blanked, plus the
mock unsubscribe link). -/
def injectedCtx (email : String) : RenderCtx :=
  [("recipient_name", ""), ("name", ""), ("contact_name", ""),
   ("first_name", ""), ("last_name", ""),
   ("unsubscribe_link", "http://unsubscribe.mock/" ++ email)]

/-- `context = recipient.metadata.copy(); context.update(execution_context)`
followed by the injected keys: later `dict.update` writes win, so lookup
priority is injected > execution context > metadata. -/
def buildCtx (execCtx : RenderCtx) (r : RecipCtx) : RenderCtx :=
  injectedCtx r.email ++ execCtx ++ r.metadata

/-- `process_recipient`: if the run deadline had already passed when this
recipient started, return a `timed_out` result without touching any counter;
otherwise render subject, HTML body and (when present) text body against the
merged context — any raised error is caught by the recipient-level `except`
and recorded as an `error` result — then record the boolean send outcome.
(The post-render comma/space cleanup rewrites the rendered strings handed to
the sender; it does not affect statuses or counts and is elided.) -/
def processRecipient (tmpl : EmailTemplate) (execCtx : RenderCtx)
    (r : RecipCtx) (deadlineHit : Bool) (send : SendTry) : RecipResult :=
  if deadlineHit then { email := r.email, status := "timed_out", errMsg := none }
  else
    let ctx := buildCtx execCtx r
    match renderT tmpl.subject ctx with
    | .error m => { email := r.email, status := "error", errMsg := some m }
    | .ok _ =>
      match renderT tmpl.contentHtml ctx with
      | .error m => { email := r.email, status := "error", errMsg := some m }
      | .ok _ =>
        match (match tmpl.contentText with
               | some t => renderT t ctx
               | none => Except.ok ("")) with
        | .error m => { email := r.email, status := "error", errMsg := some m }
        | .ok _ =>
          match send with
          | .delivered => { email := r.email, status := "success", errMsg := none }
          | .rejected => { email := r.email, status := "failed", errMsg := none }
          | .blowsUp m => { email := r.email, status := "error", errMsg := some m }

/-- Final observable state of the sending phase: the counters and
`recipient_results`. -/
structure PhaseOut where
  successCount : ℕ
  failedCount : ℕ
  results : List RecipResult
  deriving DecidableEq, Repr

/-- The sending phase of `execute_workflow` (steps 6 of the source): each
valid recipient is processed (its deadline flag and send outcome supplied as
oracles, since completions are concurrent and unordered); `success_count`
increments exactly on `sent`, `failed_count` on a `False` send or a caught
exception, and deadline-skipped recipients touch neither counter.
`recipient_results` is the gathered per-recipient results followed by the
pre-populated `skipped` entries for invalid emails (line 301: valid sends
first, then skipped). -/
def sendPhase (tmpl : EmailTemplate) (execCtx : RenderCtx)
    (recips : List (RecipCtx × Bool × SendTry)) (invalid : List String) :
    PhaseOut :=
  let validResults :=
    recips.map (fun x => processRecipient tmpl execCtx x.1 x.2.1 x.2.2)
  let skipped := invalid.map (fun e =>
    { email := e, status := "skipped", errMsg := some ("invalid email (syntax/MX)") })
  { successCount := validResults.countP (fun r => r.status = "success")
    failedCount := validResults.countP
      (fun r => decide (r.status = "failed") || decide (r.status = "error"))
    results := validResults ++ skipped }

/-- Lines 315–317: `final_status` written to the execution log —
`success` when nothing failed, `failed` when every recipient failed (and
there was at least one), `partial_success` otherwise. -/
def finalLoggedStatus (failedCount numRecipients : ℕ) : String :=
  let fs := if failedCount = 0 then ("success") else ("partial_success")
  if failedCount = numRecipients ∧ 0 < numRecipients then ("failed") else fs

/-- The dict returned at lines 362–366 when the sending loop completes
before the deadline with no uncaught exception: the `status` key is the
literal `"success"`, independent of `final_status`. -/
structure ExecReturn where
  status : String
  processed : ℕ
  failedN : ℕ
  deriving DecidableEq, Repr

/-- `return {"status": "success", "processed": success_count,
"failed": failed_count}`. -/
def executorReturn (successCount failedCount : ℕ) : ExecReturn :=
  { status := "success", processed := successCount, failedN := failedCount }

/-! ## Schedule runner (`scheduler/schedule_runner.py`) -/

/-- The schedule record fields the runner reads. -/
structure Sched where
  workflowId : ℤ
  status : String
  frequency : String
  nextRunAt : Option ℚ
  deriving DecidableEq, Repr

/-- `freq` → recurrence delta in days (daily default, weekly, monthly ≈ 30). -/
def freqDelta (freq : String) : ℚ :=
  if freq = "weekly" then 7 else if freq = "monthly" then 30 else 1

/-- The `while current_next_dt <= now: current_next_dt += delta` loop
advancing the next run time strictly past `now`; `fuel` bounds the number of
iterations (the real loop terminates since `delta > 0`). -/
def advanceToFuture (delta now : ℚ) : ℚ → ℕ → ℚ
  | cur, 0 => cur
  | cur, fuel + 1 => if cur ≤ now then advanceToFuture delta now (cur + delta) fuel else cur

/-- The `updates` dict the runner persists after a completed execution. -/
structure ScheduleUpdates where
  lastRunSet : Bool
  isRunning : ℕ
  clearRunParams : Bool
  nextRunAt : Option ℚ
  deriving DecidableEq, Repr

/-- Lines 72–101: always set `last_run_at` and release `is_running`; clear
`run_parameters` exactly when the status returned by the executor is `success`;
advance `next_run_at` (when present) past `now` by whole recurrence steps. -/
def runnerUpdates (resultStatus : String) (s : Sched) (now : ℚ) (fuel : ℕ) :
    ScheduleUpdates :=
  { lastRunSet := true
    isRunning := 0
    clearRunParams := resultStatus = "success"
    nextRunAt := s.nextRunAt.map
      (fun c => advanceToFuture (freqDelta s.frequency) now c fuel) }

/-- Observable backend effects of one `ScheduleRunner.run_schedule` call
(after the initial read of the schedule). -/
inductive RunnerEff
  | execWorkflow (wid : ℤ)
  | schedUpdate (u : ScheduleUpdates)
  | unlockOnly
  deriving DecidableEq, Repr

/-- `ScheduleRunner.run_schedule`: a missing or non-active schedule aborts
with no effect; a failed atomic lock acquisition
(`schedule_client.lock_schedule` returned `False`) aborts with no effect;
otherwise the workflow executes and the combined update is persisted
(`execStatus` is the status of the dict returned by the executor), with the
`finally` block issuing an extra unlock when the schedule is found still
locked. -/
def runSchedule (sched : Option Sched) (lockOk : Bool) (execStatus : String)
    (now : ℚ) (fuel : ℕ) (stillLockedAfter : Bool) : List RunnerEff :=
  match sched with
  | none => []
  | some s =>
    if ! (s.status = "active") then []
    else if ! lockOk then []
    else
      [RunnerEff.execWorkflow s.workflowId,
       RunnerEff.schedUpdate (runnerUpdates execStatus s now fuel)] ++
      (if stillLockedAfter then [RunnerEff.unlockOnly] else [])


/-! ## Shared helper lemmas -/

/-- Counting over a filtered-then-projected list: keeping exactly the
elements whose projection satisfies `p` preserves the multiplicity of every
projected value satisfying `p` and drops the rest. -/
theorem count_map_filter {α β : Type} [DecidableEq β] (f : α → β) (p : β → Bool)
    (l : List α) (x : β) :
    ((l.filter (fun a => p (f a))).map f).count x =
      if p x then (l.map f).count x else 0 := by
  induction l with
  | nil => simp
  | cons a l ih =>
    by_cases hfx : f a = x
    · subst hfx
      by_cases hp : p (f a) = true
      · simp [List.filter_cons, hp, List.count_cons, ih]
      · simp only [Bool.not_eq_true] at hp
        simp [List.filter_cons, hp, List.count_cons, ih]
    · by_cases hp : p (f a) = true
      · simp [List.filter_cons, hp, List.count_cons, ih, hfx]
      · simp only [Bool.not_eq_true] at hp
        simp [List.filter_cons, hp, List.count_cons, ih, hfx]

/-! ## C6 — syntax-invalid emails are classified and never MX-checked -/

/-- C6: every input email whose normalised form fails the `local@domain.tld`
syntax regex lands in the `invalid` partition of `validate_emails`, carries
the bad-syntax classification (which is distinct from the
no-mail-exchange-record classification), and never enters the MX-check
phase; only syntax-valid emails enter the MX phase. -/
theorem c6_bad_format_classified (mx : String → Bool) (skipMx : Bool)
    (emails : List String) (e : String)
    (hmem : e ∈ emails) (hbad : formatOk (pyNorm e) = false) :
    pyNorm e ∈ (validateEmails mx skipMx emails).invalid ∧
    (pyNorm e, InvalidReason.badFormat) ∈ (validateEmails mx skipMx emails).flagged ∧
    pyNorm e ∉ (validateEmails mx skipMx emails).mxPhase ∧
    (∀ x ∈ (validateEmails mx skipMx emails).mxPhase, formatOk x = true) ∧
    InvalidReason.badFormat ≠ InvalidReason.deadDomain := by
  have hn : pyNorm e ∈ emails.map pyNorm := List.mem_map_of_mem _ hmem
  have hfail : pyNorm e ∈ (emails.map pyNorm).filter (fun x => ! formatOk x) :=
    List.mem_filter.mpr ⟨hn, by simp [hbad]⟩
  have hmx : ∀ x ∈ (emails.map pyNorm).filter formatOk, formatOk x = true := by
    intro x hx
    exact (List.mem_filter.mp hx).2
  have hnotmx : pyNorm e ∉ (emails.map pyNorm).filter formatOk := by
    intro hx
    rw [hmx (pyNorm e) hx] at hbad
    exact Bool.noConfusion hbad
  cases hsk : skipMx
  · refine ⟨?_, ?_, ?_, ?_, by decide⟩
    · exact List.mem_append_left _ hfail
    · exact List.mem_append_left _ (List.mem_map_of_mem _ hfail)
    · exact hnotmx
    · exact hmx
  · exact ⟨hfail, List.mem_map_of_mem _ hfail, by simp [validateEmails],
      by simp [validateEmails], by decide⟩

/-- Witness for C6 at a concrete input: `"bad email"` fails the syntax check
and is classified accordingly with a live MX oracle. -/
theorem c6_bad_format_classified_witness :
    pyNorm ("bad email") ∈
      (validateEmails (fun _ => true) false [("bad email")]).invalid ∧
    (pyNorm ("bad email"), InvalidReason.badFormat) ∈
      (validateEmails (fun _ => true) false [("bad email")]).flagged ∧
    pyNorm ("bad email") ∉
      (validateEmails (fun _ => true) false [("bad email")]).mxPhase ∧
    (∀ x ∈ (validateEmails (fun _ => true) false [("bad email")]).mxPhase,
      formatOk x = true) ∧
    InvalidReason.badFormat ≠ InvalidReason.deadDomain :=
  c6_bad_format_classified (fun _ => true) false [("bad email")] ("bad email")
    (by decide) (by decide)

/-! ## C5 — the resolver does not deduplicate -/

/-- C5 counterexample: two backend rows carrying the same email address both
survive `RecipientResolver.resolve` — the validated recipient list contains
`a@b.com` twice, so the claimed per-run at-most-once property fails. -/
theorem c5_counterexample :
    (((resolve (fun _ => true)
        [{ recipientEmail := some ("a@b.com") },
         { recipientEmail := some ("a@b.com") }]).1.map
        WfRecipient.email).count ("a@b.com") = 2) ∧
    ¬ (((resolve (fun _ => true)
        [{ recipientEmail := some ("a@b.com") },
         { recipientEmail := some ("a@b.com") }]).1.map
        WfRecipient.email).count ("a@b.com") ≤ 1) := by
  decide

/-- C5 amended: `resolve` filters the raw recipients by membership of their
(normalised) email in the valid set of the validator, preserving multiplicity —
an email appearing in `k` backend rows appears `k` times in the validated
send set when it validates, and zero times otherwise; duplicates are not
removed. -/
theorem c5_multiplicity_preserved (mx : String → Bool) (rows : List Row)
    (x : String) :
    ((resolve mx rows).1.map WfRecipient.email).count x =
      if x ∈ (validateEmails mx false
          ((rowsToRaw rows).map WfRecipient.email)).valid
      then ((rowsToRaw rows).map WfRecipient.email).count x
      else 0 := by
  by_cases hraw : (rowsToRaw rows).isEmpty
  · rw [List.isEmpty_iff] at hraw
    simp [resolve, hraw, List.isEmpty_nil]
  · have hres : (resolve mx rows).1 =
        (rowsToRaw rows).filter (fun r => r.email ∈
          (validateEmails mx false ((rowsToRaw rows).map WfRecipient.email)).valid) := by
      simp [resolve, hraw]
    rw [hres]
    have h := count_map_filter WfRecipient.email
      (fun e => decide (e ∈ (validateEmails mx false
        ((rowsToRaw rows).map WfRecipient.email)).valid))
      (rowsToRaw rows) x
    simpa using h

/-! ## C4 — rate limiting is a fixed 60-second window, not a sliding one -/

/-- Unfolding lemma for one attempt in a trace. -/
theorem runAcquires_cons (rate : ℤ) (st : BucketState) (t : ℚ) (ts : List ℚ) :
    runAcquires rate st (t :: ts) =
      { state := (runAcquires rate (acquireTry rate st t).1 ts).state
        succTimes := if (acquireTry rate st t).2
          then t :: (runAcquires rate (acquireTry rate st t).1 ts).succTimes
          else (runAcquires rate (acquireTry rate st t).1 ts).succTimes
        refills := (if ¬ rate ≤ 0 ∧ 60 < t - st.lastRefill then 1 else 0) +
          (runAcquires rate (acquireTry rate st t).1 ts).refills } := rfl

/-- With a positive rate, an attempt more than 60s after the last refill
resets the bucket to capacity and consumes one token. -/
theorem acquireTry_refill (rate : ℤ) (st : BucketState) (now : ℚ)
    (hrate : 0 < rate) (href : 60 < now - st.lastRefill) :
    acquireTry rate st now = ({ tokens := rate - 1, lastRefill := now }, true) := by
  have h0 : ¬ rate ≤ 0 := not_le.mpr hrate
  have h1 : (1 : ℤ) ≤ rate := hrate
  simp [acquireTry, h0, href, h1]

/-- With a positive rate, no refill due and a token available, an attempt
consumes one token. -/
theorem acquireTry_consume (rate : ℤ) (st : BucketState) (now : ℚ)
    (hrate : 0 < rate) (href : ¬ 60 < now - st.lastRefill)
    (htok : 1 ≤ st.tokens) :
    acquireTry rate st now = ({ st with tokens := st.tokens - 1 }, true) := by
  have h0 : ¬ rate ≤ 0 := not_le.mpr hrate
  simp [acquireTry, h0, href, htok]

/-- With a positive rate, no refill due and no token left, an attempt fails
(the caller sleeps and retries later). -/
theorem acquireTry_dry (rate : ℤ) (st : BucketState) (now : ℚ)
    (hrate : 0 < rate) (href : ¬ 60 < now - st.lastRefill)
    (htok : ¬ 1 ≤ st.tokens) :
    acquireTry rate st now = (st, false) := by
  have h0 : ¬ rate ≤ 0 := not_le.mpr hrate
  simp [acquireTry, h0, href, htok]

/-- Token conservation for the bucket: along any attempt trace starting from
a well-formed state, the number of successful acquisitions plus the leftover
tokens is bounded by the starting tokens plus capacity times the number of
full-reset refills, and the state stays well-formed. -/
theorem runAcquires_bound (rate : ℤ) (hrate : 0 < rate) :
    ∀ (times : List ℚ) (st : BucketState), 0 ≤ st.tokens → st.tokens ≤ rate →
      ((runAcquires rate st times).succTimes.length : ℤ) +
          (runAcquires rate st times).state.tokens ≤
        st.tokens + rate * (runAcquires rate st times).refills ∧
      0 ≤ (runAcquires rate st times).state.tokens ∧
      (runAcquires rate st times).state.tokens ≤ rate := by
  intro times
  induction times with
  | nil =>
    intro st h0 h1
    refine ⟨?_, h0, h1⟩
    simp [runAcquires]
  | cons t ts ih =>
    intro st h0 h1
    have hflag : ¬ rate ≤ 0 := not_le.mpr hrate
    by_cases href : 60 < t - st.lastRefill
    · -- full reset then consume
      have hstep := acquireTry_refill rate st t hrate href
      have hnext := ih { tokens := rate - 1, lastRefill := t }
        (by show (0 : ℤ) ≤ rate - 1; omega) (by show rate - 1 ≤ rate; omega)
      rw [runAcquires_cons, hstep]
      refine ⟨?_, hnext.2.1, hnext.2.2⟩
      have hlen := hnext.1
      simp only [if_pos (And.intro hflag href)]
      simp
      ring_nf
      ring_nf at hlen
      linarith [hlen, h0]
    · have hstep0 : ¬ (¬ rate ≤ 0 ∧ 60 < t - st.lastRefill) := by
        intro h
        exact href h.2
      by_cases htok : 1 ≤ st.tokens
      · have hstep := acquireTry_consume rate st t hrate href htok
        have hnext := ih { st with tokens := st.tokens - 1 }
          (by show (0 : ℤ) ≤ st.tokens - 1; omega)
          (by show st.tokens - 1 ≤ rate; omega)
        rw [runAcquires_cons, hstep]
        refine ⟨?_, hnext.2.1, hnext.2.2⟩
        have hlen := hnext.1
        simp only [if_neg hstep0]
        simp
        ring_nf
        ring_nf at hlen
        linarith [hlen]
      · have hstep := acquireTry_dry rate st t hrate href htok
        have hnext := ih st h0 h1
        rw [runAcquires_cons, hstep]
        refine ⟨?_, hnext.2.1, hnext.2.2⟩
        have hlen := hnext.1
        simp only [if_neg hstep0]
        push_cast
        ring_nf
        ring_nf at hlen
        linarith [hlen]

/-- C4 counterexample: with `rate_limit_per_minute = 1` and a bucket created
at time 0, acquisitions at times 60 and 61 both succeed (the second because
`61 - 0 > 60` triggers a full reset) — two successes only one second apart,
violating "no more than `rate_limit_per_minute` successes within any
60-second window". -/
theorem c4_counterexample :
    (runAcquires 1 { tokens := 1, lastRefill := 0 } [60, 61]).succTimes =
      [60, 61] ∧
    (61 : ℚ) - 60 ≤ 60 ∧
    1 < (runAcquires 1 { tokens := 1, lastRefill := 0 } [60, 61]).succTimes.length := by
  refine ⟨?_, by norm_num, ?_⟩ <;>
    norm_num [runAcquires_cons, acquireTry, runAcquires]

/-- C4 amended: with `rate_limit_per_minute <= 0`, `acquire` returns
immediately without blocking or changing state; with a positive rate the
bucket enforces a fixed per-refill window — starting from a well-formed
state, the number of successful acquisitions is at most
`rate * (number of full-reset refills + 1)`, i.e. at most `rate` per
refill window, where a refill is a full reset to capacity taken only when
strictly more than 60 seconds have elapsed since the last refill.  (The
per-sliding-60-second-window bound claimed by the spec fails — see the
counterexample.) -/
theorem c4_window_behavior (rate : ℤ) (st : BucketState) (times : List ℚ) :
    (rate ≤ 0 → ∀ now, acquireTry rate st now = (st, true)) ∧
    (0 < rate → 0 ≤ st.tokens → st.tokens ≤ rate →
      ((runAcquires rate st times).succTimes.length : ℤ) +
          (runAcquires rate st times).state.tokens ≤
        st.tokens + rate * (runAcquires rate st times).refills ∧
      ((runAcquires rate st times).succTimes.length : ℤ) ≤
        rate * ((runAcquires rate st times).refills + 1)) := by
  constructor
  · intro hle now
    simp [acquireTry, hle]
  · intro hrate h0 h1
    have h := runAcquires_bound rate hrate times st h0 h1
    refine ⟨h.1, ?_⟩
    have h2 := h.2.1
    have hmul : rate * (((runAcquires rate st times).refills : ℤ) + 1) =
        rate * ((runAcquires rate st times).refills : ℤ) + rate := by ring
    rw [hmul]
    nlinarith [h.1, h.2.1, h1, hrate]

/-- Witness for C4 at the counterexample trace: two successes, one refill,
bound `2 ≤ 1 * (1 + 1)` attained. -/
theorem c4_window_behavior_witness :
    ((runAcquires 1 { tokens := 1, lastRefill := 0 } [60, 61]).succTimes.length : ℤ) ≤
      1 * ((runAcquires 1 { tokens := 1, lastRefill := 0 } [60, 61]).refills + 1) :=
  ((c4_window_behavior 1 { tokens := 1, lastRefill := 0 } [60, 61]).2
    (by norm_num) (by norm_num) (by norm_num)).2

/-! ## C3 — retry policy lemmas -/

/-- `consSleep` leaves the call count unchanged. -/
theorem RetryOutcome.callCount_consSleep {α : Type} (x : ℚ) (r : RetryOutcome α) :
    (r.consSleep x).callCount = r.callCount := by
  cases r <;> rfl

/-- `consSleep` prepends to the sleep list. -/
theorem RetryOutcome.sleepsOf_consSleep {α : Type} (x : ℚ) (r : RetryOutcome α) :
    (r.consSleep x).sleepsOf = x :: r.sleepsOf := by
  cases r <;> rfl

/-- Every sleep recorded by the retry loop launched at attempt `a` follows
the backoff formula at its global attempt index. -/
theorem retryLoop_sleep_get {α : Type} (mA : ℕ) (base maxD : ℚ)
    (calls : ℕ → CallResult α) (jit : ℕ → ℚ) :
    ∀ (fuel a i : ℕ) (d : ℚ),
      ((retryLoop mA base maxD calls jit fuel a).sleepsOf).get? i = some d →
      d = min (base * 2 ^ (a + i)) maxD + jit (a + i + 1) := by
  intro fuel
  induction fuel with
  | zero =>
    intro a i d h
    simp [retryLoop, RetryOutcome.sleepsOf] at h
  | succ fuel ih =>
    intro a i d h
    rw [retryLoop] at h
    cases hc : calls a with
    | ok v =>
      rw [hc] at h
      simp [RetryOutcome.sleepsOf] at h
    | err e =>
      rw [hc] at h
      dsimp only at h
      by_cases h1 : mA ≤ a + 1
      · rw [if_pos h1] at h
        simp [RetryOutcome.sleepsOf] at h
      · rw [if_neg h1] at h
        by_cases h2 : isTransientError e = true
        · rw [h2] at h
          simp only [Bool.not_true, Bool.false_eq_true, if_false,
            RetryOutcome.sleepsOf_consSleep] at h
          cases i with
          | zero =>
            simp only [List.get?_cons_zero, Option.some.injEq] at h
            simp [h.symm]
          | succ i =>
            simp only [List.get?_cons_succ] at h
            have harith : a + (i + 1) = (a + 1) + i := by omega
            rw [harith]
            exact ih (a + 1) i d h
        · rw [Bool.not_eq_true] at h2
          rw [h2] at h
          simp [RetryOutcome.sleepsOf] at h

/-- Starting below the attempt cap, the retry loop makes at most
`max_attempts` calls. -/
theorem retryLoop_calls_le {α : Type} (mA : ℕ) (base maxD : ℚ)
    (calls : ℕ → CallResult α) (jit : ℕ → ℚ) :
    ∀ (fuel a : ℕ), a < mA →
      (retryLoop mA base maxD calls jit fuel a).callCount ≤ mA := by
  intro fuel
  induction fuel with
  | zero =>
    intro a ha
    simpa [retryLoop, RetryOutcome.callCount] using Nat.le_of_lt ha
  | succ fuel ih =>
    intro a ha
    rw [retryLoop]
    cases hc : calls a with
    | ok v =>
      simpa [RetryOutcome.callCount] using ha
    | err e =>
      dsimp only
      by_cases h1 : mA ≤ a + 1
      · rw [if_pos h1]
        simpa [RetryOutcome.callCount] using ha
      · rw [if_neg h1]
        by_cases h2 : isTransientError e = true
        · rw [h2]
          simp only [Bool.not_true, Bool.false_eq_true, if_false,
            RetryOutcome.callCount_consSleep]
          exact ih (a + 1) (by omega)
        · rw [Bool.not_eq_true] at h2
          rw [h2]
          simpa [RetryOutcome.callCount] using ha

/-- If every call up to the attempt cap fails with a transient error, the
loop re-raises the last error after exactly `max_attempts` calls. -/
theorem retryLoop_exhaust {α : Type} (mA : ℕ) (base maxD : ℚ)
    (calls : ℕ → CallResult α) (jit : ℕ → ℚ) (es : ℕ → String)
    (hcalls : ∀ n, n < mA → calls n = CallResult.err (es n))
    (htrans : ∀ n, isTransientError (es n) = true) :
    ∀ (fuel a : ℕ), a < mA → mA ≤ fuel + a →
      ∃ ds, retryLoop mA base maxD calls jit fuel a =
        RetryOutcome.raised (es (mA - 1)) mA ds := by
  intro fuel
  induction fuel with
  | zero =>
    intro a ha hfa
    omega
  | succ fuel ih =>
    intro a ha hfa
    rw [retryLoop, hcalls a ha]
    dsimp only
    by_cases h1 : mA ≤ a + 1
    · have haeq : a = mA - 1 := by omega
      rw [if_pos h1, haeq]
      refine ⟨[], ?_⟩
      have hm : mA - 1 + 1 = mA := by omega
      rw [hm]
    · rw [if_neg h1, htrans a]
      simp only [Bool.not_true, Bool.false_eq_true, if_false]
      obtain ⟨ds, hds⟩ := ih (a + 1) (by omega) (by omega)
      rw [hds]
      exact ⟨(min (base * 2 ^ a) maxD + jit (a + 1)) :: ds, rfl⟩

/-- A first-call failure classified non-transient is re-raised after exactly
one call and no sleep. -/
theorem withRetry_nontransient_one_call {α : Type} (mA : ℕ) (base maxD : ℚ)
    (calls : ℕ → CallResult α) (jit : ℕ → ℚ) (e : String)
    (hc : calls 0 = CallResult.err e) (ht : isTransientError e = false) :
    withRetry mA base maxD calls jit = RetryOutcome.raised e 1 [] := by
  rw [withRetry, retryLoop, hc]
  dsimp only
  by_cases h1 : mA ≤ 0 + 1
  · rw [if_pos h1]
  · rw [if_neg h1, ht]
    simp

/-- C3: for the retry wrapper — (1) a first-call failure classified
non-transient is re-raised after exactly one call, never retried; (2) at
most `max_attempts` total calls are made; (3) the `i`-th backoff sleep is
exactly `min(base * 2^i, max_delay)` plus the drawn jitter; (4) when every
jitter draw is within its `[0, 10%]` band, every sleep lies between the
capped delay and 110% of it; (5) when every call fails transiently, the
last error is re-raised after exactly `max_attempts` calls; (6) a transient
first failure followed by a success is retried and succeeds on the second
call. -/
theorem c3_retry_policy (A : Type) (mA : ℕ) (base maxD : ℚ)
    (calls : ℕ → CallResult A) (jit : ℕ → ℚ) (es : ℕ → String)
    (hmA : 1 ≤ mA) :
    (∀ e, calls 0 = CallResult.err e → isTransientError e = false →
      withRetry mA base maxD calls jit = RetryOutcome.raised e 1 []) ∧
    (withRetry mA base maxD calls jit).callCount ≤ mA ∧
    (∀ i d, ((withRetry mA base maxD calls jit).sleepsOf).get? i = some d →
      d = min (base * 2 ^ i) maxD + jit (i + 1)) ∧
    ((∀ n, 0 ≤ jit n ∧ 10 * jit n ≤ min (base * 2 ^ (n - 1)) maxD) →
      ∀ i d, ((withRetry mA base maxD calls jit).sleepsOf).get? i = some d →
        min (base * 2 ^ i) maxD ≤ d ∧ 10 * d ≤ 11 * min (base * 2 ^ i) maxD) ∧
    ((∀ n, n < mA → calls n = CallResult.err (es n)) →
      (∀ n, isTransientError (es n) = true) →
      ∃ ds, withRetry mA base maxD calls jit =
        RetryOutcome.raised (es (mA - 1)) mA ds) ∧
    (∀ e v, calls 0 = CallResult.err e → isTransientError e = true →
      2 ≤ mA → calls 1 = CallResult.ok v →
      withRetry mA base maxD calls jit =
        RetryOutcome.value v 2 [min (base * 2 ^ (0 : ℕ)) maxD + jit 1]) := by
  refine ⟨?_, ?_, ?_, ?_, ?_, ?_⟩
  · intro e hc ht
    exact withRetry_nontransient_one_call mA base maxD calls jit e hc ht
  · exact retryLoop_calls_le mA base maxD calls jit (mA + 1) 0 (by omega)
  · intro i d h
    have hg := retryLoop_sleep_get mA base maxD calls jit (mA + 1) 0 i d h
    simpa using hg
  · intro hj i d h
    have hd : d = min (base * 2 ^ i) maxD + jit (i + 1) := by
      have hg := retryLoop_sleep_get mA base maxD calls jit (mA + 1) 0 i d h
      simpa using hg
    have hji := hj (i + 1)
    rw [Nat.add_sub_cancel] at hji
    refine ⟨?_, ?_⟩ <;> rw [hd] <;> linarith [hji.1, hji.2]
  · intro hcalls htrans
    exact retryLoop_exhaust mA base maxD calls jit es hcalls htrans (mA + 1) 0
      (by omega) (by omega)
  · intro e v hc0 ht h2 hc1
    obtain ⟨k, rfl⟩ : ∃ k, mA = k + 2 := ⟨mA - 2, by omega⟩
    rw [withRetry, retryLoop, hc0]
    dsimp only
    rw [if_neg (by omega : ¬ k + 2 ≤ 0 + 1), ht]
    simp only [Bool.not_true, Bool.false_eq_true, if_false]
    rw [retryLoop]
    simp only [Nat.zero_add]
    rw [hc1]
    rfl

/-- Witness for C3 at a concrete wrapped operation: first call fails with a
transient connection error, second succeeds; two calls total obey the cap. -/
theorem c3_retry_policy_witness :
    (withRetry 3 1 10
      (fun n => if n = 0 then CallResult.err ("connection refused")
        else CallResult.ok (42 : ℕ))
      (fun _ => 0)).callCount ≤ 3 :=
  (c3_retry_policy ℕ 3 1 10
    (fun n => if n = 0 then CallResult.err ("connection refused")
      else CallResult.ok (42 : ℕ))
    (fun _ => 0) (fun _ => ("connection refused")) (by omega)).2.1

/-! ## C9 — SMTP send never raises; failures are not retried -/

/-- C9: `_send_sync` converts every raised exception in its body into the
return value `False` (it is a total Bool-valued function, so `send` never
raises); consequently the retry wrapper around `sender.send` always sees a
normal return, makes exactly one call with no backoff sleep, and a delivery
failure — even one whose message matches a transient marker — is recorded as
`False` from a single attempt, never retried. -/
theorem c9_smtp_send_never_raises (mA : ℕ) (base maxD : ℚ) (jit : ℕ → ℚ)
    (bodies : ℕ → Except String Bool) :
    withRetry mA base maxD (fun n => smtpSendCall (bodies n)) jit =
      RetryOutcome.value (sendSync (bodies 0)) 1 [] ∧
    (∀ m, sendSync (Except.error m) = false) ∧
    (∀ m, isTransientError m = true →
      withRetry mA base maxD (fun _ => smtpSendCall (Except.error m)) jit =
        RetryOutcome.value false 1 []) := by
  refine ⟨?_, fun m => rfl, ?_⟩
  · rw [withRetry, retryLoop]
    dsimp only [smtpSendCall]
  · intro m hm
    rw [withRetry, retryLoop]
    dsimp only [smtpSendCall, sendSync]

/-- Witness for C9: a failed SMTP session with a transient-looking message
is reported as `False` after exactly one call. -/
theorem c9_smtp_send_never_raises_witness :
    withRetry 3 1 10
      (fun _ => smtpSendCall (Except.error ("connection lost"))) (fun _ => 0) =
      RetryOutcome.value false 1 [] :=
  (c9_smtp_send_never_raises 3 1 10 (fun _ => 0)
    (fun _ => Except.error ("connection lost"))).2.2 ("connection lost")
    (by decide)

/-! ## C1 — per-recipient outcomes and the count equation -/

/-- Every processed recipient receives exactly one of the four terminal
statuses. -/
theorem processRecipient_status_mem (tmpl : EmailTemplate) (execCtx : RenderCtx)
    (r : RecipCtx) (d : Bool) (s : SendTry) :
    (processRecipient tmpl execCtx r d s).status ∈
      [("timed_out"), ("success"), ("failed"), ("error")] := by
  simp only [processRecipient]
  cases d
  · simp only [Bool.false_eq_true, if_false]
    rcases h1 : renderT tmpl.subject (buildCtx execCtx r) with m | s1
    · simp
    · rcases h2 : renderT tmpl.contentHtml (buildCtx execCtx r) with m | s2
      · simp
      · rcases hct : tmpl.contentText with _ | t
        · cases s <;> simp
        · rcases h3 : renderT t (buildCtx execCtx r) with m | s3
          · simp [h3]
          · cases s <;> simp [h3]
  · simp

/-- Results carrying only the four terminal statuses are partitioned exactly
by the success / failed-or-error / timed-out counters. -/
theorem countP_status_partition (l : List RecipResult)
    (h : ∀ r ∈ l, r.status ∈ [("timed_out"), ("success"), ("failed"), ("error")]) :
    l.countP (fun r => r.status = "success") +
      l.countP (fun r => decide (r.status = "failed") || decide (r.status = "error")) +
      l.countP (fun r => r.status = "timed_out") = l.length := by
  induction l with
  | nil => simp
  | cons a l ih =>
    have ha := h a (List.mem_cons_self a l)
    have hl := ih (fun r hr => h r (List.mem_cons_of_mem a hr))
    simp only [List.mem_cons, List.mem_singleton, List.not_mem_nil, or_false] at ha
    simp only [List.countP_cons, List.length_cons]
    rcases ha with h0 | h0 | h0 | h0 <;> simp [h0] <;> omega

/-- C1 amended: the sending phase records exactly one outcome per resolved
recipient — one result per valid recipient (each with one of the statuses
`timed_out` / `success` / `failed` / `error`) plus one `skipped` entry per
invalid email — and the counter equation holds in the corrected form
`success + failed + skipped-invalid + deadline-skipped = resolved`: a
recipient skipped because the deadline had passed increments neither
`success_count` nor `failed_count`, so the claimed equation
`success + failed + skipped-invalid = resolved` holds exactly when no
recipient timed out (see the counterexample). -/
theorem c1_one_outcome_per_recipient (tmpl : EmailTemplate)
    (execCtx : RenderCtx) (recips : List (RecipCtx × Bool × SendTry))
    (invalid : List String) :
    (sendPhase tmpl execCtx recips invalid).results.length =
      recips.length + invalid.length ∧
    (sendPhase tmpl execCtx recips invalid).successCount +
      (sendPhase tmpl execCtx recips invalid).failedCount + invalid.length +
      (sendPhase tmpl execCtx recips invalid).results.countP
        (fun r => r.status = "timed_out") =
      recips.length + invalid.length ∧
    (∀ r ∈ (sendPhase tmpl execCtx recips invalid).results,
      r.status ∈ [("timed_out"), ("success"), ("failed"), ("error"), ("skipped")]) := by
  refine ⟨?_, ?_, ?_⟩
  · simp [sendPhase]
  · have hpart := countP_status_partition
      (recips.map (fun x => processRecipient tmpl execCtx x.1 x.2.1 x.2.2))
      (by
        intro r hr
        obtain ⟨x, hx, rfl⟩ := List.mem_map.mp hr
        exact processRecipient_status_mem tmpl execCtx x.1 x.2.1 x.2.2)
    have hskip : (invalid.map (fun e =>
        ({ email := e, status := "skipped",
           errMsg := some ("invalid email (syntax/MX)") } : RecipResult))).countP
        (fun r => r.status = "timed_out") = 0 := by
      rw [List.countP_eq_zero]
      intro r hr
      obtain ⟨e, he, rfl⟩ := List.mem_map.mp hr
      simp
    simp only [sendPhase, List.countP_append, hskip, Nat.add_zero]
    have hlen : (recips.map
        (fun x => processRecipient tmpl execCtx x.1 x.2.1 x.2.2)).length =
        recips.length := List.length_map _ _
    omega
  · intro r hr
    simp only [sendPhase, List.mem_append] at hr
    rcases hr with hr | hr
    · obtain ⟨x, hx, rfl⟩ := List.mem_map.mp hr
      have := processRecipient_status_mem tmpl execCtx x.1 x.2.1 x.2.2
      simp only [List.mem_cons, List.not_mem_nil, or_false] at this ⊢
      tauto
    · obtain ⟨e, he, rfl⟩ := List.mem_map.mp hr
      simp

/-- Template and recipients used to instantiate C1 concretely. -/
def c1Tmpl : EmailTemplate := ⟨[TPart.lit ("Hi")], [TPart.lit ("B")], none⟩

/-- C1 counterexample: one resolved valid recipient whose processing starts
after the deadline; it is recorded `timed_out`, touching neither counter, so
`success + failed + skipped-invalid = 0 ≠ 1 =` recipients resolved. -/
theorem c1_counterexample :
    (sendPhase c1Tmpl [] [(⟨"a@b.com", []⟩, true, SendTry.delivered)] []).results =
      [⟨"a@b.com", "timed_out", none⟩] ∧
    ¬ ((sendPhase c1Tmpl [] [(⟨"a@b.com", []⟩, true, SendTry.delivered)] []).successCount +
       (sendPhase c1Tmpl [] [(⟨"a@b.com", []⟩, true, SendTry.delivered)] []).failedCount +
       ([] : List String).length = 1) := by
  decide

/-- Witness for C1 at a concrete run: one delivered recipient and one
invalid email give `1 + 0 + 1 + 0 = 1 + 1`. -/
theorem c1_one_outcome_per_recipient_witness :
    (sendPhase c1Tmpl [] [(⟨"a@b.com", []⟩, false, SendTry.delivered)]
        [("bad@@x")]).successCount +
      (sendPhase c1Tmpl [] [(⟨"a@b.com", []⟩, false, SendTry.delivered)]
        [("bad@@x")]).failedCount + [("bad@@x")].length +
      (sendPhase c1Tmpl [] [(⟨"a@b.com", []⟩, false, SendTry.delivered)]
        [("bad@@x")]).results.countP (fun r => r.status = "timed_out") =
    [((⟨"a@b.com", []⟩ : RecipCtx), false, SendTry.delivered)].length +
      [("bad@@x")].length :=
  (c1_one_outcome_per_recipient c1Tmpl []
    [(⟨"a@b.com", []⟩, false, SendTry.delivered)] [("bad@@x")]).2.1

/-! ## C2 — no pre-send template validation; strict render errors instead -/

/-- If some referenced variable is missing from the context, strict
rendering fails, and the raised message wraps some missing variable in the
`Template rendering failed:` text of the renderer. -/
theorem renderT_missing_error (t : Tmpl) (ctx : RenderCtx) :
    ∀ v ∈ tmplVars t, ctxGet ctx v = none →
    ∃ w, w ∈ tmplVars t ∧ ctxGet ctx w = none ∧
      renderT t ctx =
        Except.error ("Template rendering failed: " ++ w ++ " is undefined") := by
  induction t with
  | nil =>
    intro v hv
    simp [tmplVars] at hv
  | cons p rest ih =>
    intro v hv hn
    cases p with
    | lit s =>
      obtain ⟨w, hw, hwn, hre⟩ := ih v (by simpa [tmplVars] using hv) hn
      refine ⟨w, by simpa [tmplVars] using hw, hwn, ?_⟩
      simp [renderT, hre, Except.map]
    | var v0 =>
      cases hc : ctxGet ctx v0 with
      | none =>
        exact ⟨v0, by simp [tmplVars], hc, by simp [renderT, hc]⟩
      | some val =>
        have hv2 : v ∈ tmplVars rest := by
          rcases (by simpa [tmplVars] using hv : v = v0 ∨ v ∈ tmplVars rest) with
            rfl | h
          · rw [hc] at hn
            cases hn
          · exact h
        obtain ⟨w, hw, hwn, hre⟩ := ih v hv2 hn
        refine ⟨w, by simp [tmplVars, hw], hwn, ?_⟩
        simp [renderT, hc, hre, Except.map]

/-- A recipient whose subject render raises is recorded as an `error`
outcome carrying the raised message. -/
theorem processRecipient_error_of_subject (tmpl : EmailTemplate)
    (execCtx : RenderCtx) (r : RecipCtx) (s : SendTry) (m : String)
    (hm : renderT tmpl.subject (buildCtx execCtx r) = Except.error m) :
    processRecipient tmpl execCtx r false s =
      { email := r.email, status := "error", errMsg := some m } := by
  simp [processRecipient, hm]

/-- Template used to instantiate C2 concretely. -/
def c2Tmpl : EmailTemplate := ⟨[TPart.var ("unknown_var")], [TPart.lit ("B")], none⟩

/-- C2 counterexample: with a subject referencing `unknown_var` absent from
the context of the sample (and only) recipient, the run does not fail before
sending — the recipient is processed and recorded as a per-recipient
`error` whose message is the "Template rendering failed" renderer text,
which does not contain "Template validation failed"; the final logged status
is `failed` only because every recipient failed, and the returned status is
still `success`. -/
theorem c2_counterexample :
    (sendPhase c2Tmpl [] [(⟨"r@x.com", []⟩, false, SendTry.delivered)] []).results =
      [⟨"r@x.com", "error",
        some ("Template rendering failed: unknown_var is undefined")⟩] ∧
    strHas ("Template rendering failed: unknown_var is undefined")
      ("Template validation failed") = false ∧
    finalLoggedStatus
      (sendPhase c2Tmpl [] [(⟨"r@x.com", []⟩, false, SendTry.delivered)] []).failedCount
      1 = "failed" ∧
    (executorReturn
      (sendPhase c2Tmpl [] [(⟨"r@x.com", []⟩, false, SendTry.delivered)] []).successCount
      (sendPhase c2Tmpl [] [(⟨"r@x.com", []⟩, false, SendTry.delivered)] []).failedCount).status =
      "success" := by
  decide

/-- C2 amended: `execute_workflow` performs no sample-context template
validation before sending.  When the subject references a variable absent
from the merged context of every recipient, `validate` (which the executor never
invokes) would report it, but instead each recipient is processed and fails
during rendering: every outcome is an `error` carrying a
"Template rendering failed" message, the failed counter equals the
recipient count, the logged final status is `failed` (because all
recipients failed, not via a pre-send validation check), and the returned
status is still `success`. -/
theorem c2_no_prevalidation (tmpl : EmailTemplate) (execCtx : RenderCtx)
    (recips : List (RecipCtx × Bool × SendTry)) (invalid : List String)
    (v : String)
    (hv : v ∈ tmplVars tmpl.subject)
    (hmiss : ∀ x ∈ recips, ctxGet (buildCtx execCtx x.1) v = none)
    (hlive : ∀ x ∈ recips, x.2.1 = false) :
    (∀ x ∈ recips, v ∈ validateTmpl tmpl.subject (buildCtx execCtx x.1)) ∧
    (∀ x ∈ recips, ∃ w, ctxGet (buildCtx execCtx x.1) w = none ∧
      processRecipient tmpl execCtx x.1 x.2.1 x.2.2 =
        { email := x.1.email, status := "error",
          errMsg := some ("Template rendering failed: " ++ w ++ " is undefined") }) ∧
    (sendPhase tmpl execCtx recips invalid).successCount = 0 ∧
    (sendPhase tmpl execCtx recips invalid).failedCount = recips.length ∧
    (¬ recips = [] →
      finalLoggedStatus (sendPhase tmpl execCtx recips invalid).failedCount
        recips.length = "failed") ∧
    (executorReturn (sendPhase tmpl execCtx recips invalid).successCount
      (sendPhase tmpl execCtx recips invalid).failedCount).status = "success" := by
  have hproc : ∀ x ∈ recips, ∃ w, ctxGet (buildCtx execCtx x.1) w = none ∧
      processRecipient tmpl execCtx x.1 x.2.1 x.2.2 =
        { email := x.1.email, status := "error",
          errMsg := some ("Template rendering failed: " ++ w ++ " is undefined") } := by
    intro x hx
    obtain ⟨w, hw, hwn, hre⟩ :=
      renderT_missing_error tmpl.subject (buildCtx execCtx x.1) v hv (hmiss x hx)
    refine ⟨w, hwn, ?_⟩
    rw [hlive x hx]
    exact processRecipient_error_of_subject tmpl execCtx x.1 x.2.2 _ hre
  have hsucc : (sendPhase tmpl execCtx recips invalid).successCount = 0 := by
    simp only [sendPhase]
    rw [List.countP_eq_zero]
    intro r hr
    obtain ⟨x, hx, rfl⟩ := List.mem_map.mp hr
    obtain ⟨w, hwn, heq⟩ := hproc x hx
    rw [heq]
    simp
  have hfail : (sendPhase tmpl execCtx recips invalid).failedCount =
      recips.length := by
    simp only [sendPhase]
    rw [← List.length_map recips
      (fun x => processRecipient tmpl execCtx x.1 x.2.1 x.2.2)]
    rw [List.countP_eq_length]
    intro r hr
    obtain ⟨x, hx, rfl⟩ := List.mem_map.mp hr
    obtain ⟨w, hwn, heq⟩ := hproc x hx
    rw [heq]
    simp
  refine ⟨?_, hproc, hsucc, hfail, ?_, rfl⟩
  · intro x hx
    exact List.mem_filter.mpr ⟨hv, by simp [hmiss x hx]⟩
  · intro hne
    rw [hfail]
    have hpos : 0 < recips.length := List.length_pos.mpr hne
    simp [finalLoggedStatus, hpos]

/-- Witness for C2 at a concrete input: one live recipient, subject
referencing `unknown_var`, empty contexts — the failed counter equals the
single recipient. -/
theorem c2_no_prevalidation_witness :
    (sendPhase c2Tmpl [] [(⟨"w@x.com", []⟩, false, SendTry.rejected)] []).failedCount =
      [((⟨"w@x.com", []⟩ : RecipCtx), false, SendTry.rejected)].length :=
  (c2_no_prevalidation c2Tmpl []
    [(⟨"w@x.com", []⟩, false, SendTry.rejected)] [] ("unknown_var")
    (by decide) (by decide) (by decide)).2.2.2.1

/-! ## C7 — unknown engine types default to SMTP; a missing type fails -/

/-- C7 counterexample: a config with no `engine_type` key (status active,
`from_email` present) makes `EngineBuilder.build` raise the missing-key
`ValueError` instead of defaulting to the SMTP variant. -/
theorem c7_counterexample :
    build { fromEmail := some ("a@b.com") } =
      Except.error ("Missing engine_type in configuration.") := by
  rfl

/-- C7 amended: an *unknown* engine type string (matching no enum value,
exactly or lowercased) falls through the dispatch in `build` to the SMTP variant;
but an *unspecified* (missing) engine type is rejected by `validate_config`
with the missing-`engine_type` error rather than defaulting. -/
theorem c7_unknown_defaults_smtp (cfg : EngineConfig) (s fe : String)
    (hstat : cfg.status.getD ("active") = "active")
    (hfe : cfg.fromEmail = some fe)
    (het : cfg.engineType = some s)
    (hne : ¬ s = "")
    (hunk : s ∉ engineTypeVals)
    (hunk2 : pyLowerStr s ∉ engineTypeVals) :
    build cfg = Except.ok (BuiltSender.smtpS cfg) ∧
    (∀ c2 : EngineConfig, c2.engineType = none → ∃ m, build c2 = Except.error m) := by
  constructor
  · have hnorm : normalizeEngineType cfg = cfg := by
      rw [normalizeEngineType, het]
      simp [hunk, hunk2]
    have hsmtp : ¬ s = "smtp" := fun h => hunk (by rw [h]; decide)
    have hmg : ¬ s = "mailgun" := fun h => hunk (by rw [h]; decide)
    have hsg : ¬ s = "sendgrid" := fun h => hunk (by rw [h]; decide)
    have haws : ¬ s = "aws_ses" := fun h => hunk (by rw [h]; decide)
    have hval : validateConfig cfg = Except.ok () := by
      rw [validateConfig, het]
      simp [truthy, hne, hfe, hsg, hmg, haws]
    rw [build, if_neg (by simp [hstat])]
    dsimp only
    rw [hnorm, hval, het]
    simp [hsmtp, hmg, hsg, haws]
  · intro c2 h2
    rw [build]
    by_cases hs2 : c2.status.getD ("active") = "active"
    · rw [if_neg (by simp [hs2])]
      have hnorm2 : normalizeEngineType c2 = c2 := by
        rw [normalizeEngineType, h2]
      have hval2 : validateConfig c2 =
          Except.error ("Missing engine_type in configuration.") := by
        rw [validateConfig]
        simp [truthy, h2]
      dsimp only
      rw [hnorm2, hval2]
      exact ⟨_, rfl⟩
    · rw [if_pos (by simp [hs2])]
      exact ⟨_, rfl⟩

/-- Witness for C7: an unknown engine type `"carrier_pigeon"` builds the
SMTP variant. -/
theorem c7_unknown_defaults_smtp_witness :
    build { engineType := some ("carrier_pigeon"), fromEmail := some ("a@b.com") } =
      Except.ok (BuiltSender.smtpS
        { engineType := some ("carrier_pigeon"), fromEmail := some ("a@b.com") }) :=
  (c7_unknown_defaults_smtp
    { engineType := some ("carrier_pigeon"), fromEmail := some ("a@b.com") }
    ("carrier_pigeon") ("a@b.com") (by decide) (by decide) (by decide)
    (by decide) (by decide) (by decide)).1

/-! ## C8 — a failed lock acquisition has no side effects -/

/-- C8: when `lock_schedule` fails, `run_schedule` returns before invoking
the executor: its effect list is empty — no `execute_workflow` call and no
schedule update (in particular `next_run_at` is untouched), for any schedule
state and any would-be execution outcome. -/
theorem c8_lock_failure_no_effects (sched : Option Sched) (execStatus : String)
    (now : ℚ) (fuel : ℕ) (stillLockedAfter : Bool) :
    runSchedule sched false execStatus now fuel stillLockedAfter = [] := by
  cases sched with
  | none => rfl
  | some s =>
    rw [runSchedule]
    by_cases h : s.status = "active" <;> simp [h]

/-! ## C10 — the status returned by the executor is always `success` -/

/-- C10: when the sending loop completes before the deadline with no
uncaught exception, the dict returned by `execute_workflow` carries status
`"success"` regardless of the counters — even when the logged final status
is `partial_success` (some but not all failed) or `failed` (all failed) —
and `ScheduleRunner` consequently clears `run_parameters` for such a run. -/
theorem c10_return_status_success (sc fc n : ℕ) (s : Sched) (now : ℚ)
    (fuel : ℕ) :
    (executorReturn sc fc).status = "success" ∧
    (0 < fc → fc < n → finalLoggedStatus fc n = "partial_success") ∧
    (0 < n → fc = n → finalLoggedStatus fc n = "failed") ∧
    (runnerUpdates (executorReturn sc fc).status s now fuel).clearRunParams = true := by
  refine ⟨rfl, ?_, ?_, ?_⟩
  · intro h1 h2
    have hne : ¬ fc = 0 := by omega
    have hcond : ¬ (fc = n ∧ 0 < n) := by
      intro h
      omega
    simp [finalLoggedStatus, hne, hcond]
  · intro h1 h2
    have hcond : fc = n ∧ 0 < n := ⟨h2, h1⟩
    simp [finalLoggedStatus, hcond]
  · rfl

/-- Witness for C10: one of two recipients failed — logged status is
`partial_success`, returned status is `success`, run parameters cleared. -/
theorem c10_return_status_success_witness :
    (executorReturn 1 1).status = "success" ∧
    finalLoggedStatus 1 2 = "partial_success" ∧
    (runnerUpdates (executorReturn 1 1).status ⟨7, "active", "daily", none⟩ 0
      0).clearRunParams = true :=
  ⟨(c10_return_status_success 1 1 2 ⟨7, "active", "daily", none⟩ 0 0).1,
   (c10_return_status_success 1 1 2 ⟨7, "active", "daily", none⟩ 0 0).2.1
     (by omega) (by omega),
   (c10_return_status_success 1 1 2 ⟨7, "active", "daily", none⟩ 0 0).2.2.2⟩
